import Mathlib

/-!
Verification of the Signal Generation & Staking Decision Engine of the
sports-edge repository.

The Python source is shallowly embedded in Lean:
* floating-point arithmetic is modelled exactly over `ℚ` (and over `ℝ` where
  the source computes `10 ** x`),
* Python exceptions are modelled with `Except PyErr`,
* database reads that feed a computation (bankroll row, pending bets, the
  trailing CLV average) are passed in explicitly as fields of a state record,
* Python `round(x, 2)` (banker's rounding to cents) is modelled by
  `round_half_even`.

Source files embedded here:
* `packages/shared/shared/odds_math.py`
* `ops/scripts/settle_results_v2.py`
* `packages/models/models/features.py`
* `ops/scripts/generate_signals_v2.py`
* `ops/scripts/paper_bet_agent.py`
* `ops/scripts/settle_paper_bets.py`
-/

namespace SportsEdge

/-- Python exception kinds that the embedded code can raise. -/
inductive PyErr where
  | zeroDivisionError
  | invalidOddsError
  deriving DecidableEq, Repr

/-- Python `int(x)` on a float: truncation toward zero, modelled on `ℚ`. -/
def pyInt (x : ℚ) : ℤ :=
  if 0 ≤ x then ⌊x⌋ else ⌈x⌉

/-- Round a rational to the nearest integer, ties to the even neighbour.
This is the rounding mode of Python's builtin `round`. -/
def round_half_even (x : ℚ) : ℤ :=
  let f : ℤ := ⌊x⌋
  let r : ℚ := x - f
  if r < 1/2 then f
  else if 1/2 < r then f + 1
  else if f % 2 = 0 then f else f + 1

/-- Python `round(x, 2)`: round to the nearest cent, ties to even. -/
def round2 (x : ℚ) : ℚ :=
  (round_half_even (x * 100) : ℚ) / 100

/-- Is `needle` a prefix of `hay` (on character lists)? -/
def isPrefixL : List Char → List Char → Bool
  | [], _ => true
  | _ :: _, [] => false
  | a :: xs, b :: ys => a == b && isPrefixL xs ys

/-- Is `needle` a contiguous substring of `hay` (on character lists)? -/
def isSubL : List Char → List Char → Bool
  | n, [] => isPrefixL n []
  | n, b :: t => isPrefixL n (b :: t) || isSubL n t

/-- Python `needle in hay` on strings: contiguous-substring test. -/
def strContains (hay needle : String) : Bool :=
  isSubL needle.toList hay.toList

/-- ASCII lowercasing of one character (explicit table so that ground
instances reduce definitionally). -/
def charLower (c : Char) : Char :=
  match c with
  | 'A' => 'a' | 'B' => 'b' | 'C' => 'c' | 'D' => 'd' | 'E' => 'e' | 'F' => 'f'
  | 'G' => 'g' | 'H' => 'h' | 'I' => 'i' | 'J' => 'j' | 'K' => 'k' | 'L' => 'l'
  | 'M' => 'm' | 'N' => 'n' | 'O' => 'o' | 'P' => 'p' | 'Q' => 'q' | 'R' => 'r'
  | 'S' => 's' | 'T' => 't' | 'U' => 'u' | 'V' => 'v' | 'W' => 'w' | 'X' => 'x'
  | 'Y' => 'y' | 'Z' => 'z'
  | c => c

/-- Python `s.lower()` (on the ASCII strings the embedded code compares). -/
def strLower (s : String) : String :=
  String.mk (s.toList.map charLower)

/-! ## `packages/shared/shared/odds_math.py` -/

/-- `american_to_decimal(american_odds)` from `odds_math.py`.

`if american_odds > 0: return 1 + american_odds / 100
 else: return 1 + 100 / abs(american_odds)` —
at `american_odds = 0` the else-branch divides by `abs(0) = 0` and Python
raises `ZeroDivisionError`, modelled as the `Except.error` case. -/
def american_to_decimal (american_odds : ℤ) : Except PyErr ℚ :=
  if 0 < american_odds then
    .ok (1 + (american_odds : ℚ) / 100)
  else if american_odds = 0 then
    .error .zeroDivisionError
  else
    .ok (1 + 100 / (american_odds.natAbs : ℚ))

/-- `decimal_to_american(decimal_odds)` from `odds_math.py`.

`if decimal_odds >= 2.0: return int((decimal_odds - 1) * 100)
 else: return int(-100 / (decimal_odds - 1))` —
at `decimal_odds = 1` the else-branch raises `ZeroDivisionError`. -/
def decimal_to_american (decimal_odds : ℚ) : Except PyErr ℤ :=
  if 2 ≤ decimal_odds then
    .ok (pyInt ((decimal_odds - 1) * 100))
  else if decimal_odds = 1 then
    .error .zeroDivisionError
  else
    .ok (pyInt (-100 / (decimal_odds - 1)))

/-- `implied_probability(american_odds) = 1 / american_to_decimal(american_odds)`. -/
def implied_probability (american_odds : ℤ) : Except PyErr ℚ :=
  (american_to_decimal american_odds).map (fun d => 1 / d)

/-- The American → decimal → American round trip. -/
def round_trip (a : ℤ) : Except PyErr ℤ :=
  (american_to_decimal a).bind decimal_to_american

/-- `remove_vig_multiplicative(prob_a, prob_b)` from `odds_math.py`:
`total = prob_a + prob_b; return (prob_a / total, prob_b / total)`.
(Python would raise `ZeroDivisionError` at `total = 0`; every claim about
this function assumes strictly positive inputs, where `total > 0`.) -/
def remove_vig_multiplicative (prob_a prob_b : ℚ) : ℚ × ℚ :=
  let total := prob_a + prob_b
  (prob_a / total, prob_b / total)

/-- `calculate_edge(fair_prob, implied_prob) = (fair_prob - implied_prob) * 100`. -/
def calculate_edge (fair_prob implied_prob : ℚ) : ℚ :=
  (fair_prob - implied_prob) * 100

/-- `kelly_fraction(fair_prob, decimal_odds, fraction)` from `odds_math.py`:
`b = decimal_odds - 1; kelly_full = (b * p - q) / b;
 return max(0, kelly_full * fraction)`.
(Python would raise `ZeroDivisionError` at `decimal_odds = 1`; every claim
about this function assumes `decimal_odds > 1`.) -/
def kelly_fraction (fair_prob decimal_odds fraction : ℚ) : ℚ :=
  let b := decimal_odds - 1
  let p := fair_prob
  let q := 1 - fair_prob
  let kelly_full := (b * p - q) / b
  max 0 (kelly_full * fraction)

/-! ## ELO: `ops/scripts/settle_results_v2.py` -/

/-- `K_FACTOR = 20.0` from `settle_results_v2.py`. -/
def K_FACTOR : ℝ := 20

/-- `HOME_ADVANTAGE = 25.0` from `settle_results_v2.py`. -/
def HOME_ADVANTAGE : ℝ := 25

/-- `expected_win_probability(elo_a, elo_b)` from `settle_results_v2.py`:
`1.0 / (1.0 + 10.0 ** ((elo_b - elo_a) / 400.0))`.
Python float exponentiation is modelled by real `rpow`. -/
noncomputable def expected_win_probability (elo_a elo_b : ℝ) : ℝ :=
  1 / (1 + (10 : ℝ) ^ ((elo_b - elo_a) / 400))

/-- `update_elo_ratings(home_elo, away_elo, home_score, away_score)` from
`settle_results_v2.py`. Returns `(new_home_elo, new_away_elo)`. -/
noncomputable def update_elo_ratings (home_elo away_elo : ℝ)
    (home_score away_score : ℤ) : ℝ × ℝ :=
  let actual_home : ℝ :=
    if away_score < home_score then 1 else if home_score < away_score then 0 else 1/2
  let actual_away : ℝ :=
    if away_score < home_score then 0 else if home_score < away_score then 1 else 1/2
  let home_elo_adjusted := home_elo + HOME_ADVANTAGE
  let expected_home := expected_win_probability home_elo_adjusted away_elo
  let expected_away := 1 - expected_home
  let new_home_elo := home_elo + K_FACTOR * (actual_home - expected_home)
  let new_away_elo := away_elo + K_FACTOR * (actual_away - expected_away)
  (new_home_elo, new_away_elo)

/-! ## ELO: `packages/models/models/features.py` (`NFLFeatureGenerator`) -/

/-- State of `NFLFeatureGenerator` (the fields its ELO methods touch):
K-factor, home advantage and the `team_elos` dict (a partial map). -/
structure NFLFeatureGenerator where
  k_factor : ℝ
  home_advantage : ℝ
  team_elos : ℤ → Option ℝ

/-- `self.team_elos.get(team_id, 1500.0)`. -/
noncomputable def NFLFeatureGenerator.getElo (g : NFLFeatureGenerator) (team_id : ℤ) : ℝ :=
  (g.team_elos team_id).getD 1500

/-- `NFLFeatureGenerator.expected_score(elo_a, elo_b)`:
`1 / (1 + 10 ** ((elo_b - elo_a) / 400))`. -/
noncomputable def expected_score (elo_a elo_b : ℝ) : ℝ :=
  1 / (1 + (10 : ℝ) ^ ((elo_b - elo_a) / 400))

/-- `NFLFeatureGenerator.update_elo(team_id, opponent_id, actual_score, is_home)`:
reads both current ratings, adds the home advantage to the updating team's
rating for the expectation, applies `new = elo + k * (actual - expected)`,
strips the home advantage again and stores the result for `team_id`. -/
noncomputable def NFLFeatureGenerator.update_elo (g : NFLFeatureGenerator)
    (team_id opponent_id : ℤ) (actual_score : ℝ) (isHome : Bool) :
    NFLFeatureGenerator :=
  let team_elo0 := g.getElo team_id
  let opponent_elo := g.getElo opponent_id
  let team_elo := if isHome then team_elo0 + g.home_advantage else team_elo0
  let expected := expected_score team_elo opponent_elo
  let new_elo0 := team_elo + g.k_factor * (actual_score - expected)
  let new_elo := if isHome then new_elo0 - g.home_advantage else new_elo0
  { g with team_elos := fun t => if t = team_id then some new_elo else g.team_elos t }

/-- One iteration of `NFLFeatureGenerator.update_ratings_from_results`
(one row of the results frame): derive the 1/0/0.5 outcomes from the final
scores, then `update_elo(home, away, home_result, is_home=True)` followed by
`update_elo(away, home, away_result, is_home=False)`. -/
noncomputable def NFLFeatureGenerator.process_result (g : NFLFeatureGenerator)
    (home_team_id away_team_id : ℤ) (home_score away_score : ℤ) :
    NFLFeatureGenerator :=
  let home_result : ℝ :=
    if away_score < home_score then 1 else if home_score < away_score then 0 else 1/2
  let away_result : ℝ :=
    if away_score < home_score then 0 else if home_score < away_score then 1 else 1/2
  ((g.update_elo home_team_id away_team_id home_result true).update_elo
    away_team_id home_team_id away_result false)

/-! ## `ops/scripts/generate_signals_v2.py` -/

/-- `SignalGeneratorV2.calculate_expiry_time(game_scheduled_at, sport)`.
Time is measured in hours on `ℚ`; `now_utc` (the value of
`datetime.now(timezone.utc)`) is passed explicitly. The 5-minute buffer is
`1/12` hour. -/
def calculate_expiry_time (game_scheduled_at : ℚ) (sport : String) (now_utc : ℚ) : ℚ :=
  let sport_lower := strLower sport
  let hours_before : ℚ :=
    if sport_lower = "nfl" then 48
    else if sport_lower = "nba" then 24
    else 36
  let candidate := game_scheduled_at - hours_before
  let minimum_expiry := now_utc + 5/60
  let candidate2 := if candidate < minimum_expiry then minimum_expiry else candidate
  min candidate2 game_scheduled_at

/-- The moneyline branch of `SignalGeneratorV2.calculate_fair_probability`:
`p_home = expected_score(home_elo + home_advantage, away_elo); p_away = 1 - p_home`,
returned for the home and away selections respectively. -/
noncomputable def moneyline_fair_probabilities (home_elo away_elo home_advantage : ℝ) :
    ℝ × ℝ :=
  let home_elo_adj := home_elo + home_advantage
  let p_home := expected_score home_elo_adj away_elo
  (p_home, 1 - p_home)

/-! ## `ops/scripts/paper_bet_agent.py` (`PaperBettingAgent`) -/

/-- `signals.confidence_level` values. -/
inductive ConfidenceLevel where
  | low
  | medium
  | high
  deriving DecidableEq, Repr

/-- Correlation-risk levels returned by `assess_correlation_risk`. -/
inductive Risk where
  | low
  | medium
  | high
  deriving DecidableEq, Repr

/-- The fields of a `paper_betting_strategies` row that the agent reads.
`max_daily_bets` is nullable; `strategy.get('max_daily_bets')` is falsy both
for `NULL` and for `0`. -/
structure Strategy where
  kelly_fraction : ℚ
  max_stake_pct : ℚ
  max_exposure_per_game : ℚ
  max_daily_bets : Option ℕ

/-- The fields of a pending `paper_bets` row that the agent reads.
`home_team_id` / `away_team_id` are accessed with `.get`, so they are
optional (the `paper_bets` table does not carry them). `placed_day` models
`placed_at.date()` as an abstract day index. -/
structure PendingBet where
  game_id : ℤ
  stake : ℚ
  home_team_id : Option ℤ
  away_team_id : Option ℤ
  placed_day : ℤ

/-- The fields of a candidate signal row that `make_decision` reads.
`scheduled_at` is measured in hours on the same clock as `AgentState.now`. -/
structure SignalRow where
  game_id : ℤ
  home_team_id : ℤ
  away_team_id : ℤ
  market_id : ℤ
  sportsbook : String
  market_name : String
  edge_percent : ℚ
  odds_american : ℤ
  confidence_level : ConfidenceLevel
  scheduled_at : ℚ

/-- The state `PaperBettingAgent` works from: the loaded strategy, the
`paper_bankroll.balance`, the pending bets, the current time/date, and the
trailing 30-day average CLV per `(sportsbook, market_id)` that
`_get_clv_bonus` queries (`none` models an empty / NULL query result). -/
structure AgentState where
  strategy : Strategy
  balance : ℚ
  pending_bets : List PendingBet
  now : ℚ
  today : ℤ
  clv_avg : String → ℤ → Option ℚ

/-- `PaperBettingAgent._get_clv_bonus(signal)`: bucket the queried average
CLV (`> 2 → 0.20`, `> 1 → 0.15`, `> 0 → 0.10`), defaulting to `0.05` when
the query returns nothing, `NULL`, or a non-positive (falsy-or-else) value. -/
def get_clv_bonus (st : AgentState) (s : SignalRow) : ℚ :=
  match st.clv_avg s.sportsbook s.market_id with
  | some avg_clv =>
    if avg_clv = 0 then 1/20
    else if 2 < avg_clv then 1/5
    else if 1 < avg_clv then 3/20
    else if 0 < avg_clv then 1/10
    else 1/20
  | none => 1/20

/-- `PaperBettingAgent.calculate_confidence_score(signal)`: the five
additive factors (edge bucket, model confidence, CLV bonus, time to game,
market reliability), capped at `1.0`. -/
def calculate_confidence_score (st : AgentState) (s : SignalRow) : ℚ :=
  let edge := s.edge_percent
  let score1 : ℚ :=
    if 10 ≤ edge then 3/10
    else if 7 ≤ edge then 1/4
    else if 5 ≤ edge then 1/5
    else if 3 ≤ edge then 3/20
    else 1/10
  let score2 : ℚ :=
    match s.confidence_level with
    | .high => 3/10
    | .medium => 1/5
    | .low => 1/10
  let score3 := get_clv_bonus st s
  let hours_until_game := s.scheduled_at - st.now
  let score4 : ℚ :=
    if hours_until_game ≤ 24 then 1/20
    else if hours_until_game ≤ 48 then 2/25
    else 1/10
  let market := strLower s.market_name
  let score5 : ℚ :=
    if strContains market "moneyline" || strContains market "h2h" then 1/10
    else if strContains market "spread" || strContains market "handicap" then 2/25
    else 1/20
  min 1 (score1 + score2 + score3 + score4 + score5)

/-- `PaperBettingAgent.assess_correlation_risk(signal)`:
`high` if any pending bet shares the game, `medium` if at least two pending
bets share a team, else `low`. -/
def assess_correlation_risk (st : AgentState) (s : SignalRow) : Risk :=
  let same_game_count :=
    (st.pending_bets.filter (fun b => b.game_id == s.game_id)).length
  if 0 < same_game_count then .high
  else
    let same_team_count :=
      (st.pending_bets.filter (fun b =>
        b.home_team_id == some s.home_team_id ||
        b.home_team_id == some s.away_team_id ||
        b.away_team_id == some s.home_team_id ||
        b.away_team_id == some s.away_team_id)).length
    if 2 ≤ same_team_count then .medium
    else .low

/-- The inline American → decimal conversion used by `calculate_stake` and
`place_paper_bet` (same branches as `american_to_decimal`; at odds `0`
Python would raise `ZeroDivisionError` — here the Lean junk value `1`
results, and no claim evaluates the agent at odds `0`). -/
def agent_odds_decimal (odds_american : ℤ) : ℚ :=
  if 0 < odds_american then (odds_american : ℚ) / 100 + 1
  else 100 / (odds_american.natAbs : ℚ) + 1

/-- `PaperBettingAgent.calculate_stake(signal, confidence_score)`:
`kelly_raw = (edge_percent/100) / (odds_decimal - 1)`, scaled by the
strategy's Kelly fraction and the bankroll, then by the confidence score,
capped at `max_stake_pct`% of the bankroll, and both stakes rounded to
cents. Returns `(kelly_stake, actual_stake)`. -/
def calculate_stake (st : AgentState) (s : SignalRow) (confidence_score : ℚ) :
    ℚ × ℚ :=
  let edge := s.edge_percent / 100
  let odds_decimal := agent_odds_decimal s.odds_american
  let kelly_fraction_raw := edge / (odds_decimal - 1)
  let kelly_fraction_scaled := kelly_fraction_raw * st.strategy.kelly_fraction
  let kelly_stake := st.balance * kelly_fraction_scaled
  let adjusted_stake := kelly_stake * confidence_score
  let max_stake := st.balance * (st.strategy.max_stake_pct / 100)
  let actual_stake := min adjusted_stake max_stake
  (round2 kelly_stake, round2 actual_stake)

/-- `sum(float(bet['stake']) for bet in self.pending_bets if bet['game_id'] == game_id)`:
the current pending exposure on the signal's game. -/
def current_game_exposure (st : AgentState) (s : SignalRow) : ℚ :=
  ((st.pending_bets.filter (fun b => b.game_id == s.game_id)).map
    (fun b => b.stake)).sum

/-- The named rejection reasons of `check_exposure_limits` (the reason
strings of the source, as a closed enumeration). -/
inductive LimitReason where
  | game_exposure
  | daily_limit
  | total_exposure
  | within_limits
  deriving DecidableEq, Repr

/-- `PaperBettingAgent.check_exposure_limits(signal, stake)`: per-game
exposure cap, optional daily bet-count cap, and the blanket 30%-of-bankroll
total-exposure ceiling, checked in that order. -/
def check_exposure_limits (st : AgentState) (s : SignalRow) (stake : ℚ) :
    Bool × LimitReason :=
  let total_game_exposure := current_game_exposure st s + stake
  let max_game_exposure := st.balance * (st.strategy.max_exposure_per_game / 100)
  if max_game_exposure < total_game_exposure then (false, .game_exposure)
  else
    let daily_blocked :=
      match st.strategy.max_daily_bets with
      | some n =>
        if n = 0 then false
        else
          let today_bets :=
            (st.pending_bets.filter (fun (b : PendingBet) => b.placed_day == st.today)).length
          decide (n ≤ today_bets)
      | none => false
    if daily_blocked then (false, .daily_limit)
    else
      let total_pending_stake := (st.pending_bets.map (fun (b : PendingBet) => b.stake)).sum
      if st.balance * (3/10) < total_pending_stake + stake then
        (false, .total_exposure)
      else (true, .within_limits)

/-- `decision` values of `paper_bet_decisions`. -/
inductive DecisionAction where
  | place
  | skip
  deriving DecidableEq, Repr

/-- The tuple `make_decision` returns (the free-text `reasoning` string of
the source is elided; it is logging only). -/
structure Decision where
  action : DecisionAction
  confidence_score : ℚ
  kelly_stake : Option ℚ
  actual_stake : Option ℚ
  deriving DecidableEq, Repr

/-- `PaperBettingAgent.make_decision(signal)`: skip on high correlation
risk; otherwise size the stake, skip if below the $1 floor, skip if an
exposure limit blocks it, else place. -/
def make_decision (st : AgentState) (s : SignalRow) : Decision :=
  let confidence_score := calculate_confidence_score st s
  let correlation_risk := assess_correlation_risk st s
  if correlation_risk = Risk.high then
    ⟨.skip, confidence_score, none, none⟩
  else
    let stakes := calculate_stake st s confidence_score
    if stakes.2 < 1 then
      ⟨.skip, confidence_score, some stakes.1, none⟩
    else if (check_exposure_limits st s stakes.2).1 = false then
      ⟨.skip, confidence_score, some stakes.1, some stakes.2⟩
    else
      ⟨.place, confidence_score, some stakes.1, some stakes.2⟩

/-! ## Settlement: `ops/scripts/settle_results_v2.py` (`SettlementProcessor`) -/

/-- `safe_float(value)` from `settle_results_v2.py`: `None → 0.0`. -/
def safe_float (value : Option ℚ) : ℚ :=
  value.getD 0

/-- Outcomes returned by `SettlementProcessor.determine_bet_outcome`. -/
inductive BetOutcome where
  | win
  | loss
  | push
  | void
  deriving DecidableEq, Repr

/-- `SettlementProcessor.determine_bet_outcome(bet, home_score, away_score)`.
The bet's `market_name` and `line_value` are passed explicitly.
(The source's `if line_value is None: return 'void'` guards are unreachable:
`safe_float` has already coerced `None` to `0.0`.) -/
def determine_bet_outcome (market_name : String) (line_value : Option ℚ)
    (home_score away_score : ℤ) : BetOutcome :=
  let lv := safe_float line_value
  if market_name = "spread" then
    let adjusted_margin := ((home_score : ℚ) - (away_score : ℚ)) + lv
    if 0 < adjusted_margin then .win
    else if adjusted_margin < 0 then .loss
    else .push
  else if market_name = "total" then
    let total_points : ℚ := (home_score : ℚ) + (away_score : ℚ)
    if lv < total_points then .win
    else if total_points < lv then .loss
    else .push
  else if market_name = "moneyline" then
    if away_score < home_score then .win
    else if home_score < away_score then .loss
    else .push
  else .void

/-! ## Settlement: `ops/scripts/settle_paper_bets.py` (`PaperBetSettlement`) -/

/-- Results returned by `PaperBetSettlement.determine_bet_result`. -/
inductive PaperBetResult where
  | won
  | lost
  | push
  | void
  deriving DecidableEq, Repr

/-- `float(bet['line_value']) if bet['line_value'] else 0`: Python
truthiness maps both `None` and `0.0` to `0`, which on `ℚ` is `getD 0`. -/
def line_or_zero (line_value : Option ℚ) : ℚ :=
  line_value.getD 0

/-- `PaperBetSettlement.determine_bet_result(bet)`. The bet's fields
(`market_name`, `selection`, team names, `line_value`) and the final scores
are passed explicitly. Note the away-side spread branch adds `abs(line_value)`
to the away score. -/
def determine_bet_result (market_name selection home_team away_team : String)
    (line_value : Option ℚ) (home_score away_score : ℤ) : PaperBetResult :=
  let market := strLower market_name
  if strContains market "moneyline" || strContains market "h2h" then
    if strContains selection home_team then
      if away_score < home_score then .won else .lost
    else
      if home_score < away_score then .won else .lost
  else if strContains market "spread" || strContains market "handicap" then
    let lv := line_or_zero line_value
    if strContains selection home_team then
      let adjusted_score := (home_score : ℚ) + lv
      if (away_score : ℚ) < adjusted_score then .won
      else if adjusted_score = (away_score : ℚ) then .push
      else .lost
    else
      let adjusted_score := (away_score : ℚ) + |lv|
      if (home_score : ℚ) < adjusted_score then .won
      else if adjusted_score = (home_score : ℚ) then .push
      else .lost
  else if strContains market "total" || strContains market "over" ||
      strContains market "under" then
    let lv := line_or_zero line_value
    let actual_total : ℚ := (home_score : ℚ) + (away_score : ℚ)
    if strContains (strLower selection) "over" then
      if lv < actual_total then .won
      else if actual_total = lv then .push
      else .lost
    else
      if actual_total < lv then .won
      else if actual_total = lv then .push
      else .lost
  else .void

/-! ## Theorems -/

/-- `pyInt` is the identity on integers. -/
theorem pyInt_intCast (n : ℤ) : pyInt (n : ℚ) = n := by
  unfold pyInt
  split
  · exact Int.floor_intCast n
  · exact Int.ceil_intCast n

/-- **C4.** For every fair probability `p ∈ [0,1]`, decimal odds `d > 1`
and fraction `f > 0`: `kelly_fraction p d f` is `0` whenever `p` is at most
the implied probability `1/d`; it is strictly positive whenever `p > 1/d`;
and on the positive-edge region it equals
`f * ((d-1)*p - (1-p)) / (d-1)`, hence scales linearly with `f`. -/
theorem kelly_fraction_edge_behaviour (p d f : ℚ)
    (hp0 : 0 ≤ p) (hp1 : p ≤ 1) (hd : 1 < d) (hf : 0 < f) :
    (p ≤ 1 / d → kelly_fraction p d f = 0) ∧
    (1 / d < p →
      0 < kelly_fraction p d f ∧
      kelly_fraction p d f = f * ((d - 1) * p - (1 - p)) / (d - 1)) := by
  have hd0 : (0 : ℚ) < d := lt_trans one_pos hd
  have hb : (0 : ℚ) < d - 1 := by linarith
  have hkey : (d - 1) * p - (1 - p) = d * p - 1 := by ring
  constructor
  · intro hle
    have hdp : d * p ≤ 1 := by
      calc d * p = p * d := by ring
        _ ≤ (1 / d) * d := by
            exact mul_le_mul_of_nonneg_right hle (le_of_lt hd0)
        _ = 1 := by field_simp
    have hnum : (d - 1) * p - (1 - p) ≤ 0 := by rw [hkey]; linarith
    have hquot : ((d - 1) * p - (1 - p)) / (d - 1) ≤ 0 :=
      div_nonpos_of_nonpos_of_nonneg hnum (le_of_lt hb)
    have hprod : ((d - 1) * p - (1 - p)) / (d - 1) * f ≤ 0 :=
      mul_nonpos_of_nonpos_of_nonneg hquot (le_of_lt hf)
    unfold kelly_fraction
    simpa using max_eq_left hprod
  · intro hlt
    have hdp : 1 < d * p := by
      calc 1 = (1 / d) * d := by field_simp
        _ < p * d := by
            exact mul_lt_mul_of_pos_right hlt hd0
        _ = d * p := by ring
    have hnum : 0 < (d - 1) * p - (1 - p) := by rw [hkey]; linarith
    have hquot : 0 < ((d - 1) * p - (1 - p)) / (d - 1) := div_pos hnum hb
    have hprod : 0 < ((d - 1) * p - (1 - p)) / (d - 1) * f := mul_pos hquot hf
    have heq : kelly_fraction p d f = ((d - 1) * p - (1 - p)) / (d - 1) * f := by
      unfold kelly_fraction
      simpa using max_eq_right (le_of_lt hprod)
    refine ⟨by rw [heq]; exact hprod, ?_⟩
    rw [heq]
    field_simp
    ring

/-- Witness for `kelly_fraction_edge_behaviour` at `p = 3/5`, `d = 2`,
`f = 1/2`. -/
theorem kelly_fraction_edge_behaviour_witness :
    0 < kelly_fraction (3/5) 2 (1/2) ∧
    kelly_fraction (3/5) 2 (1/2) = (1/2) * ((2 - 1) * (3/5) - (1 - 3/5)) / (2 - 1) := by
  have h := (kelly_fraction_edge_behaviour (3/5) 2 (1/2)
    (by norm_num) (by norm_num) (by norm_num) (by norm_num)).2 (by norm_num)
  exact h

/-- **C6, counterexample.** `american_to_decimal(0)` does fail, but with
`ZeroDivisionError` (the else-branch divides by `abs(0)`), not with
`InvalidOddsError` as the claim states; no `InvalidOddsError` exists in the
codebase. -/
theorem american_to_decimal_zero_not_invalid_odds :
    american_to_decimal 0 = Except.error PyErr.zeroDivisionError ∧
    PyErr.zeroDivisionError ≠ PyErr.invalidOddsError :=
  ⟨rfl, by decide⟩

/-- **C6, amended.** `american_to_decimal(0)` and `implied_probability(0)`
fail (they do not return a value), raising `ZeroDivisionError`. -/
theorem american_to_decimal_zero_fails :
    american_to_decimal 0 = Except.error PyErr.zeroDivisionError ∧
    implied_probability 0 = Except.error PyErr.zeroDivisionError :=
  ⟨rfl, rfl⟩

/-- **C7.** For positive implied probabilities, `remove_vig_multiplicative`
returns exactly `(p_a/(p_a+p_b), p_b/(p_a+p_b))`: the outputs sum to `1`
(hence to within `1e-6`), the input ratio is preserved, and order is
preserved. -/
theorem remove_vig_multiplicative_normalises (pa pb : ℚ)
    (ha : 0 < pa) (hb : 0 < pb) :
    remove_vig_multiplicative pa pb = (pa / (pa + pb), pb / (pa + pb)) ∧
    (remove_vig_multiplicative pa pb).1 + (remove_vig_multiplicative pa pb).2 = 1 ∧
    |(remove_vig_multiplicative pa pb).1 + (remove_vig_multiplicative pa pb).2 - 1|
      ≤ 1 / 1000000 ∧
    (remove_vig_multiplicative pa pb).1 * pb = (remove_vig_multiplicative pa pb).2 * pa ∧
    (pb ≤ pa → (remove_vig_multiplicative pa pb).2 ≤ (remove_vig_multiplicative pa pb).1) := by
  have ht : (0 : ℚ) < pa + pb := by linarith
  have ht0 : pa + pb ≠ 0 := ne_of_gt ht
  have hsum : pa / (pa + pb) + pb / (pa + pb) = 1 := by
    rw [div_add_div_same, div_self ht0]
  refine ⟨rfl, ?_, ?_, ?_, ?_⟩
  · simpa [remove_vig_multiplicative] using hsum
  · have : (remove_vig_multiplicative pa pb).1 + (remove_vig_multiplicative pa pb).2 = 1 := by
      simpa [remove_vig_multiplicative] using hsum
    rw [this]
    norm_num
  · simp only [remove_vig_multiplicative]
    field_simp
    ring
  · intro hba
    simp only [remove_vig_multiplicative]
    exact div_le_div_of_nonneg_right hba ht.le

/-- Witness for `remove_vig_multiplicative_normalises` at
`(p_a, p_b) = (3/5, 1/2)`. -/
theorem remove_vig_multiplicative_normalises_witness :
    remove_vig_multiplicative (3/5) (1/2) = ((3/5) / (3/5 + 1/2), (1/2) / (3/5 + 1/2)) ∧
    (remove_vig_multiplicative (3/5) (1/2)).1 + (remove_vig_multiplicative (3/5) (1/2)).2 = 1 := by
  have h := remove_vig_multiplicative_normalises (3/5) (1/2) (by norm_num) (by norm_num)
  exact ⟨h.1, h.2.1⟩

/-- **C8, counterexample.** At American odds `-100` (valid: `|a| ≥ 100`)
the round trip returns `+100`, which differs from `-100` by `200`, not by
at most `1` unit: `american_to_decimal(-100) = 2.0` and the `>= 2.0` branch
of `decimal_to_american` yields `+100`. -/
theorem round_trip_minus_hundred :
    round_trip (-100) = Except.ok 100 ∧ ¬ |(100 : ℤ) - (-100)| ≤ 1 := by
  constructor
  · norm_num [round_trip, american_to_decimal, decimal_to_american, pyInt,
      Except.bind]
  · decide

/-- **C8, amended.** For every American odds integer `a` with `a ≥ 100` or
`a ≤ -101`, the round trip `decimal_to_american(american_to_decimal(a))`
returns exactly `a` (so it differs by at most one unit); the only valid
input where the bound fails is `a = -100`, which maps to `+100`. -/
theorem round_trip_exact (a : ℤ) (h : 100 ≤ a ∨ a ≤ -101) :
    round_trip a = Except.ok a := by
  rcases h with h | h
  · have ha : (0 : ℤ) < a := by linarith
    have haq : (100 : ℚ) ≤ (a : ℚ) := by exact_mod_cast h
    have hbranch : (2 : ℚ) ≤ 1 + (a : ℚ) / 100 := by
      have : (1 : ℚ) ≤ (a : ℚ) / 100 := by
        rw [le_div_iff (by norm_num : (0:ℚ) < 100)]
        linarith
      linarith
    have hval : (1 + (a : ℚ) / 100 - 1) * 100 = (a : ℚ) := by ring
    simp only [round_trip, american_to_decimal, if_pos ha, Except.bind]
    unfold decimal_to_american
    rw [if_pos hbranch, hval, pyInt_intCast]
  · have ha : a < 0 := by linarith
    have ha0 : ¬ (0 : ℤ) < a := by linarith
    have hane : ¬ a = 0 := by omega
    have hnat : ((a.natAbs : ℚ)) = -(a : ℚ) := by
      rw [Int.cast_natAbs, abs_of_neg ha, Int.cast_neg]
    have hnapos : (0 : ℚ) < -(a : ℚ) := by
      have : (a : ℚ) < 0 := by exact_mod_cast ha
      linarith
    have hbig : (101 : ℚ) ≤ -(a : ℚ) := by
      have : (a : ℚ) ≤ -101 := by exact_mod_cast h
      linarith
    have hfrac_pos : (0 : ℚ) < 100 / (-(a : ℚ)) := div_pos (by norm_num) hnapos
    have hfrac_lt : 100 / (-(a : ℚ)) < 1 := by
      rw [div_lt_one hnapos]
      linarith
    have hnot2 : ¬ (2 : ℚ) ≤ 1 + 100 / (a.natAbs : ℚ) := by
      rw [hnat]
      linarith
    have hnot1 : ¬ (1 + 100 / (a.natAbs : ℚ)) = 1 := by
      rw [hnat]
      intro hcontra
      have : 100 / (-(a : ℚ)) = 0 := by linarith
      rw [this] at hfrac_pos
      exact lt_irrefl 0 hfrac_pos
    have hval : -100 / (1 + 100 / (a.natAbs : ℚ) - 1) = (a : ℚ) := by
      rw [hnat]
      have hinner : (1 : ℚ) + 100 / (-(a : ℚ)) - 1 = 100 / (-(a : ℚ)) := by ring
      rw [hinner, div_div_eq_mul_div]
      ring
    simp only [round_trip, american_to_decimal, if_neg ha0, if_neg hane, Except.bind]
    unfold decimal_to_american
    rw [if_neg hnot2, if_neg hnot1, hval, pyInt_intCast]

/-- Witness for `round_trip_exact` at `a = 150`. -/
theorem round_trip_exact_witness :
    ((100 : ℤ) ≤ 150 ∨ (150 : ℤ) ≤ -101) ∧ round_trip 150 = Except.ok 150 :=
  ⟨Or.inl (by norm_num), round_trip_exact 150 (Or.inl (by norm_num))⟩

/-- **C9.** For every game whose scheduled start is not earlier than the
current time, the signal expiry computed by `calculate_expiry_time`
satisfies `now ≤ expires_at ≤ scheduled_time`, for every sport string. -/
theorem calculate_expiry_time_bounds (game_scheduled_at now_utc : ℚ)
    (sport : String) (h : now_utc ≤ game_scheduled_at) :
    now_utc ≤ calculate_expiry_time game_scheduled_at sport now_utc ∧
    calculate_expiry_time game_scheduled_at sport now_utc ≤ game_scheduled_at := by
  unfold calculate_expiry_time
  set hb : ℚ :=
    if strLower sport = "nfl" then 48
    else if strLower sport = "nba" then 24
    else 36 with hhb
  simp only []
  constructor
  · by_cases hc : game_scheduled_at - hb < now_utc + 5/60
    · rw [if_pos hc]
      exact le_min (by linarith) h
    · rw [if_neg hc]
      push_neg at hc
      exact le_min (by linarith) h
  · by_cases hc : game_scheduled_at - hb < now_utc + 5/60
    · rw [if_pos hc]
      exact min_le_right _ _
    · rw [if_neg hc]
      exact min_le_right _ _

/-- Witness for `calculate_expiry_time_bounds`: an NFL game scheduled at
hour `100` seen at hour `0` expires within `[0, 100]`. -/
theorem calculate_expiry_time_bounds_witness :
    (0 : ℚ) ≤ 100 ∧
    ((0 : ℚ) ≤ calculate_expiry_time 100 "NFL" 0 ∧
      calculate_expiry_time 100 "NFL" 0 ≤ 100) :=
  ⟨by norm_num, calculate_expiry_time_bounds 100 0 "NFL" (by norm_num)⟩

/-- `10 ^ x > 0` for real exponents. -/
theorem ten_rpow_pos (x : ℝ) : 0 < (10 : ℝ) ^ x :=
  Real.rpow_pos_of_pos (by norm_num) x

/-- The two directions of the logistic ELO expectation sum to one. -/
theorem expected_score_add_symm (a b : ℝ) :
    expected_score a b + expected_score b a = 1 := by
  unfold expected_score
  have hx : (a - b) / 400 = -((b - a) / 400) := by ring
  rw [hx, Real.rpow_neg (by norm_num : (0:ℝ) ≤ 10)]
  set t : ℝ := (10 : ℝ) ^ ((b - a) / 400) with ht
  have htpos : 0 < t := ten_rpow_pos _
  have h1 : (1 : ℝ) + t ≠ 0 := by positivity
  have h2 : (1 : ℝ) + t⁻¹ ≠ 0 := by positivity
  field_simp
  ring

/-- The logistic ELO expectation lies strictly between 0 and 1. -/
theorem expected_score_mem_Ioo (a b : ℝ) :
    0 < expected_score a b ∧ expected_score a b < 1 := by
  unfold expected_score
  set t : ℝ := (10 : ℝ) ^ ((b - a) / 400) with ht
  have htpos : 0 < t := ten_rpow_pos _
  have hpos : (0 : ℝ) < 1 + t := by linarith
  constructor
  · exact div_pos one_pos hpos
  · rw [div_lt_one hpos]
    linarith

/-- **C10.** For all ratings `a`, `b`:
`expected_score(a,b) + expected_score(b,a) = 1` and
`0 < expected_score(a,b) < 1`; `expected_win_probability` (the settlement
path's copy) is the same function; and consequently the two moneyline fair
probabilities derived by the signal generator (`p_home`, `1 - p_home`) sum
to `1` with each strictly between 0 and 1. -/
theorem expected_score_symmetry_and_bounds :
    (∀ a b : ℝ, expected_score a b + expected_score b a = 1 ∧
      0 < expected_score a b ∧ expected_score a b < 1) ∧
    (∀ a b : ℝ, expected_win_probability a b = expected_score a b) ∧
    (∀ home_elo away_elo home_advantage : ℝ,
      (moneyline_fair_probabilities home_elo away_elo home_advantage).1 +
        (moneyline_fair_probabilities home_elo away_elo home_advantage).2 = 1 ∧
      0 < (moneyline_fair_probabilities home_elo away_elo home_advantage).1 ∧
      (moneyline_fair_probabilities home_elo away_elo home_advantage).1 < 1 ∧
      0 < (moneyline_fair_probabilities home_elo away_elo home_advantage).2 ∧
      (moneyline_fair_probabilities home_elo away_elo home_advantage).2 < 1) := by
  refine ⟨?_, ?_, ?_⟩
  · intro a b
    exact ⟨expected_score_add_symm a b, expected_score_mem_Ioo a b⟩
  · intro a b
    rfl
  · intro home_elo away_elo home_advantage
    have h := expected_score_mem_Ioo (home_elo + home_advantage) away_elo
    have he : moneyline_fair_probabilities home_elo away_elo home_advantage =
        (expected_score (home_elo + home_advantage) away_elo,
          1 - expected_score (home_elo + home_advantage) away_elo) := rfl
    rw [he]
    dsimp only
    refine ⟨by ring, h.1, h.2, by linarith [h.2], by linarith [h.1]⟩

/-- **C2, amended.** The settlement-path update is exactly zero-sum: for
every pair of prior ratings and every pair of final scores, the two rating
deltas produced by `update_elo_ratings` cancel exactly (the away
expectation is defined as `1 - expected_home`, so the cancellation is exact,
home adjustment included). -/
theorem update_elo_ratings_zero_sum (home_elo away_elo : ℝ)
    (home_score away_score : ℤ) :
    ((update_elo_ratings home_elo away_elo home_score away_score).1 - home_elo) +
    ((update_elo_ratings home_elo away_elo home_score away_score).2 - away_elo) = 0 := by
  unfold update_elo_ratings
  dsimp only
  split_ifs <;> ring

/-- The feature-generator state used in the C2 counterexample: `k = 20`,
home advantage `25`, team 2 rated `1525`, every other team unseen (1500). -/
noncomputable def cexGenC2 : NFLFeatureGenerator :=
  ⟨20, 25, fun t => if t = 2 then some 1525 else none⟩

/-- `cexGenC2` after `update_ratings_from_results` processes one tied game
of home team 1 against away team 2, final score 20–20. -/
noncomputable def cexGenC2_after : NFLFeatureGenerator :=
  cexGenC2.process_result 1 2 20 20

/-- The tie against an equal effective rating leaves the home rating at
`1500`. -/
theorem cexGenC2_after_home : cexGenC2_after.getElo 1 = 1500 := by
  have hE0 : expected_score (1525:ℝ) 1525 = 1/2 := by
    unfold expected_score
    have hz : ((1525:ℝ) - 1525) / 400 = 0 := by norm_num
    rw [hz, Real.rpow_zero]
    norm_num
  simp only [cexGenC2_after, cexGenC2, NFLFeatureGenerator.process_result,
    NFLFeatureGenerator.update_elo, NFLFeatureGenerator.getElo]
  norm_num [hE0]

/-- The away update is computed against the stored home rating `1500`
(without home advantage), giving expectation `expected_score 1525 1500`. -/
theorem cexGenC2_after_away :
    cexGenC2_after.getElo 2 = 1525 + 20 * (1/2 - expected_score 1525 1500) := by
  have hE0 : expected_score (1525:ℝ) 1525 = 1/2 := by
    unfold expected_score
    have hz : ((1525:ℝ) - 1525) / 400 = 0 := by norm_num
    rw [hz, Real.rpow_zero]
    norm_num
  simp only [cexGenC2_after, cexGenC2, NFLFeatureGenerator.process_result,
    NFLFeatureGenerator.update_elo, NFLFeatureGenerator.getElo]
  norm_num [hE0]

/-- **C2, counterexample.** For one game processed by
`NFLFeatureGenerator.update_ratings_from_results` (home team 1 at 1500,
away team 2 at 1525, a 20–20 tie), the two rating deltas do NOT cancel:
the home side's expectation uses `home + 25` while the away side's
expectation is computed against the stored (unadjusted, already-updated)
home rating, so the summed delta is `10 - 20 * expected_score 1525 1500`,
which is strictly negative. -/
theorem update_ratings_from_results_not_zero_sum :
    (cexGenC2_after.getElo 1 - cexGenC2.getElo 1) +
    (cexGenC2_after.getElo 2 - cexGenC2.getElo 2) ≠ 0 := by
  have hg1 : cexGenC2.getElo 1 = 1500 := by
    simp [cexGenC2, NFLFeatureGenerator.getElo]
  have hg2 : cexGenC2.getElo 2 = 1525 := by
    simp [cexGenC2, NFLFeatureGenerator.getElo]
  rw [cexGenC2_after_home, cexGenC2_after_away, hg1, hg2]
  have hu : (10 : ℝ) ^ (((1500:ℝ) - 1525) / 400) < 1 := by
    apply Real.rpow_lt_one_of_one_lt_of_neg (by norm_num)
    norm_num
  have hu0 : (0 : ℝ) < (10 : ℝ) ^ (((1500:ℝ) - 1525) / 400) := ten_rpow_pos _
  have hE : (1:ℝ)/2 < expected_score 1525 1500 := by
    unfold expected_score
    rw [lt_div_iff (by linarith)]
    linarith
  intro hzero
  nlinarith [hE]

/-- Banker's rounding overshoots by at most one half. -/
theorem round_half_even_le (x : ℚ) : (round_half_even x : ℚ) ≤ x + 1/2 := by
  unfold round_half_even
  dsimp only
  have hfl : ((⌊x⌋ : ℤ) : ℚ) ≤ x := Int.floor_le x
  split_ifs with h1 h2 h3
  · linarith
  · push_neg at h1
    push_cast
    linarith
  · push_neg at h1
    push_cast
    linarith
  · push_neg at h1 h2
    push_cast
    linarith

/-- Rounding to cents overshoots by at most half a cent. -/
theorem round2_le (x : ℚ) : round2 x ≤ x + 1/200 := by
  unfold round2
  have h := round_half_even_le (x * 100)
  calc (round_half_even (x * 100) : ℚ) / 100
      ≤ (x * 100 + 1/2) / 100 := div_le_div_of_nonneg_right h (by norm_num)
    _ = x + 1/200 := by ring

/-- **C5.** Evaluation of `PaperBetSettlement.determine_bet_result` at the
failing input: an away-side spread bet recorded with the (negative)
away line `-3`, final score home 7 – away 10. The claim's push condition
holds (`away_score + line = 10 + (-3) = 7 = home_score`), but the code adds
`abs(line)` for away selections and returns `won`, not `push`. -/
theorem determine_bet_result_away_negative_line :
    determine_bet_result "spread" "AWY -3" "HOM" "AWY" (some (-3)) 7 10 =
      PaperBetResult.won ∧
    (10 : ℚ) + (-3) = 7 ∧
    PaperBetResult.won ≠ PaperBetResult.push := by
  refine ⟨?_, by norm_num, by decide⟩
  unfold determine_bet_result
  dsimp only
  rw [show strLower "spread" = "spread" from rfl,
      show strContains "spread" "moneyline" = false from rfl,
      show strContains "spread" "h2h" = false from rfl,
      show strContains "spread" "spread" = true from rfl,
      show strContains "AWY -3" "HOM" = false from rfl]
  norm_num [line_or_zero]

/-- The state used in the C1 counterexample: conservative strategy fields
`kelly_fraction = 1`, `max_stake_pct = 1`%, `max_exposure_per_game = 5`%,
no daily cap, bankroll balance `$1000.60`, no pending bets, no CLV
history. -/
def cexStateC1 : AgentState :=
  ⟨⟨1, 1, 5, none⟩, 5003/5, [], 0, 0, fun _ _ => none⟩

/-- The signal used in the C1 counterexample: a high-confidence moneyline
signal at `+100` with a stored edge of 50%, game in 10 hours. -/
def cexSignalC1 : SignalRow :=
  ⟨42, 1, 2, 7, "book", "moneyline", 50, 100, .high, 10⟩

/-- Ground evaluation: the confidence score of the C1 signal is `0.8`. -/
theorem cexC1_confidence : calculate_confidence_score cexStateC1 cexSignalC1 = 4/5 := by
  unfold calculate_confidence_score get_clv_bonus
  dsimp only [cexStateC1, cexSignalC1]
  rw [show strLower "moneyline" = "moneyline" from rfl,
      show strContains "moneyline" "moneyline" = true from rfl]
  norm_num [min_def]

/-- Ground evaluation: no pending bets, so correlation risk is `low`. -/
theorem cexC1_risk : assess_correlation_risk cexStateC1 cexSignalC1 = Risk.low := by
  unfold assess_correlation_risk
  dsimp only [cexStateC1, cexSignalC1]
  norm_num

/-- Ground evaluation: the stake pair of the C1 signal is
`(500.30, 10.01)` — the per-bet cap is `$10.006` and rounding it to cents
gives `$10.01`. -/
theorem cexC1_stakes :
    calculate_stake cexStateC1 cexSignalC1 (4/5) = (5003/10, 1001/100) := by
  unfold calculate_stake agent_odds_decimal
  dsimp only [cexStateC1, cexSignalC1]
  norm_num [min_def, round2, round_half_even]

/-- Ground evaluation: a `$10.01` stake passes every exposure check. -/
theorem cexC1_limits :
    (check_exposure_limits cexStateC1 cexSignalC1 (1001/100)).1 = true := by
  unfold check_exposure_limits current_game_exposure
  dsimp only [cexStateC1, cexSignalC1]
  norm_num

/-- **C1, counterexample.** With bankroll `$1000.60` and a 1% per-bet cap
(`max_stake = $10.006`), `make_decision` returns `place` with actual stake
`$10.01`: the final `round(stake, 2)` is applied after the cap, so the
placed stake exceeds the per-bet cap (by 0.4 cents). -/
theorem make_decision_place_above_cap :
    (make_decision cexStateC1 cexSignalC1).action = DecisionAction.place ∧
    (make_decision cexStateC1 cexSignalC1).actual_stake = some (1001/100) ∧
    cexStateC1.balance * (cexStateC1.strategy.max_stake_pct / 100) < 1001/100 := by
  have hd : make_decision cexStateC1 cexSignalC1 =
      ⟨.place, 4/5, some (5003/10), some (1001/100)⟩ := by
    unfold make_decision
    rw [cexC1_confidence, cexC1_risk]
    dsimp only
    rw [if_neg (show ¬ (Risk.low = Risk.high) by decide), cexC1_stakes]
    dsimp only
    rw [if_neg (show ¬ ((1001 : ℚ)/100 < 1) by norm_num),
        if_neg (show ¬ ((check_exposure_limits cexStateC1 cexSignalC1 (1001/100)).1 = false) by
          rw [cexC1_limits]; decide)]
  rw [hd]
  dsimp only [cexStateC1]
  norm_num

/-- **C1, amended.** Whenever `make_decision` returns `place` with actual
stake `a`: the correlation risk was not `high` (a `high` risk always
skips); `a` exceeds the per-bet cap `balance * max_stake_pct / 100` by at
most the half-cent introduced by the final rounding to cents (before
rounding the stake never exceeds the cap); and the game's pending exposure
plus `a` does not exceed the per-game cap
`balance * max_exposure_per_game / 100` (this check runs on the final
rounded stake, so it is exact). -/
theorem make_decision_place_within_caps (st : AgentState) (s : SignalRow) (a : ℚ)
    (hplace : (make_decision st s).action = DecisionAction.place)
    (hstake : (make_decision st s).actual_stake = some a) :
    assess_correlation_risk st s ≠ Risk.high ∧
    a ≤ st.balance * (st.strategy.max_stake_pct / 100) + 1/200 ∧
    current_game_exposure st s + a ≤
      st.balance * (st.strategy.max_exposure_per_game / 100) := by
  by_cases hrisk : assess_correlation_risk st s = Risk.high
  · exfalso
    unfold make_decision at hplace
    rw [if_pos hrisk] at hplace
    exact DecisionAction.noConfusion hplace
  · refine ⟨hrisk, ?_⟩
    unfold make_decision at hplace hstake
    rw [if_neg hrisk] at hplace hstake
    by_cases hmin : (calculate_stake st s (calculate_confidence_score st s)).2 < 1
    · exfalso
      rw [if_pos hmin] at hplace
      exact DecisionAction.noConfusion hplace
    · rw [if_neg hmin] at hplace hstake
      by_cases hexp :
          (check_exposure_limits st s
            (calculate_stake st s (calculate_confidence_score st s)).2).1 = false
      · exfalso
        rw [if_pos hexp] at hplace
        exact DecisionAction.noConfusion hplace
      · rw [if_neg hexp] at hstake
        have ha : a = (calculate_stake st s (calculate_confidence_score st s)).2 := by
          simpa using hstake.symm
        constructor
        · -- per-bet cap, up to the rounding half-cent
          rw [ha]
          unfold calculate_stake
          dsimp only
          have hmin2 :
              min (st.balance *
                    (s.edge_percent / 100 / (agent_odds_decimal s.odds_american - 1) *
                      st.strategy.kelly_fraction) * calculate_confidence_score st s)
                  (st.balance * (st.strategy.max_stake_pct / 100)) ≤
                st.balance * (st.strategy.max_stake_pct / 100) := min_le_right _ _
          calc round2 (min _ _) ≤ _ + 1/200 := round2_le _
            _ ≤ st.balance * (st.strategy.max_stake_pct / 100) + 1/200 := by
                linarith [hmin2]
        · -- per-game exposure cap
          rw [ha]
          set stake := (calculate_stake st s (calculate_confidence_score st s)).2
          by_cases hgame :
              st.balance * (st.strategy.max_exposure_per_game / 100) <
                current_game_exposure st s + stake
          · exfalso
            apply hexp
            unfold check_exposure_limits
            rw [if_pos hgame]
          · push_neg at hgame
            exact hgame

/-- The state used in the C1 witness: as `cexStateC1` but with a round
`$1000` bankroll, so the placed stake is exactly the `$10` cap. -/
def witStateC1 : AgentState :=
  ⟨⟨1, 1, 5, none⟩, 1000, [], 0, 0, fun _ _ => none⟩

/-- Ground evaluation of `make_decision` at the witness state. -/
theorem witC1_decision :
    make_decision witStateC1 cexSignalC1 = ⟨.place, 4/5, some 500, some 10⟩ := by
  have hconf : calculate_confidence_score witStateC1 cexSignalC1 = 4/5 := by
    unfold calculate_confidence_score get_clv_bonus
    dsimp only [witStateC1, cexSignalC1]
    rw [show strLower "moneyline" = "moneyline" from rfl,
        show strContains "moneyline" "moneyline" = true from rfl]
    norm_num [min_def]
  have hrisk : assess_correlation_risk witStateC1 cexSignalC1 = Risk.low := by
    unfold assess_correlation_risk
    dsimp only [witStateC1, cexSignalC1]
    norm_num
  have hstakes : calculate_stake witStateC1 cexSignalC1 (4/5) = (500, 10) := by
    unfold calculate_stake agent_odds_decimal
    dsimp only [witStateC1, cexSignalC1]
    norm_num [min_def, round2, round_half_even]
  have hlim : (check_exposure_limits witStateC1 cexSignalC1 10).1 = true := by
    unfold check_exposure_limits current_game_exposure
    dsimp only [witStateC1, cexSignalC1]
    norm_num
  unfold make_decision
  rw [hconf, hrisk]
  dsimp only
  rw [if_neg (show ¬ (Risk.low = Risk.high) by decide), hstakes]
  dsimp only
  rw [if_neg (show ¬ ((10 : ℚ) < 1) by norm_num),
      if_neg (show ¬ ((check_exposure_limits witStateC1 cexSignalC1 10).1 = false) by
        rw [hlim]; decide)]

/-- Witness for `make_decision_place_within_caps` at the `$1000` state:
the placed `$10` stake sits on the per-bet cap and within the per-game
cap. -/
theorem make_decision_place_within_caps_witness :
    (make_decision witStateC1 cexSignalC1).action = DecisionAction.place ∧
    (make_decision witStateC1 cexSignalC1).actual_stake = some 10 ∧
    (assess_correlation_risk witStateC1 cexSignalC1 ≠ Risk.high ∧
      (10 : ℚ) ≤ witStateC1.balance * (witStateC1.strategy.max_stake_pct / 100) + 1/200 ∧
      current_game_exposure witStateC1 cexSignalC1 + 10 ≤
        witStateC1.balance * (witStateC1.strategy.max_exposure_per_game / 100)) := by
  have h1 : (make_decision witStateC1 cexSignalC1).action = DecisionAction.place := by
    rw [witC1_decision]
  have h2 : (make_decision witStateC1 cexSignalC1).actual_stake = some 10 := by
    rw [witC1_decision]
  exact ⟨h1, h2, make_decision_place_within_caps witStateC1 cexSignalC1 10 h1 h2⟩

/-- The state used for C3: quarter-Kelly strategy, `$1000` bankroll, no
pending bets. -/
def c3State : AgentState :=
  ⟨⟨1/4, 1, 5, none⟩, 1000, [], 0, 0, fun _ _ => none⟩

/-- The signal used for C3: `+100` odds (decimal `2`), stored edge 5%,
which is the edge of fair probability `11/20` against the implied
probability `1/2` of the price. -/
def c3Signal : SignalRow :=
  ⟨42, 1, 2, 7, "book", "moneyline", 5, 100, .high, 10⟩

/-- **C3, counterexample.** With fair probability `p = 11/20`, odds `+100`
(`d = 2`), quarter-Kelly and a `$1000` bankroll, the agent's `kelly_stake`
is `$12.50`, while `bankroll * kelly_fraction(p, d, f)` from OddsMath §4.1
is `$25`: the agent computes `edge/(d-1)`, not `(d*p-1)/(d-1)`, so its
stake is the OddsMath Kelly stake divided by `d`. -/
theorem calculate_stake_not_oddsmath_kelly :
    c3Signal.edge_percent = ((11/20 : ℚ) - 1/2) * 100 ∧
    agent_odds_decimal c3Signal.odds_american = 2 ∧
    (calculate_stake c3State c3Signal 1).1 = 25/2 ∧
    c3State.balance * kelly_fraction (11/20) 2 (1/4) = 25 ∧
    (25/2 : ℚ) ≠ 25 := by
  refine ⟨by norm_num [c3Signal], ?_, ?_, ?_, by norm_num⟩
  · norm_num [agent_odds_decimal, c3Signal]
  · unfold calculate_stake agent_odds_decimal
    dsimp only [c3State, c3Signal]
    norm_num [round2, round_half_even]
  · unfold kelly_fraction
    dsimp only [c3State]
    norm_num [max_def]

/-- **C3, amended.** For every agent state and signal with nonzero American
odds `a` and decimal odds `d` (the agent's conversion of `a`), strategy
Kelly fraction `f ≥ 0`, and a fair probability `p` with no negative edge
(`p ≥ 1/d`) whose stored edge is `edge_percent = (p - 1/d) * 100`:
the agent's `kelly_stake` equals
`round2 (bankroll * kelly_fraction(p, d, f) / d)` — the OddsMath §4.1 Kelly
stake divided by the decimal odds (and rounded to cents), not the OddsMath
Kelly stake itself. -/
theorem calculate_stake_kelly_relation (st : AgentState) (s : SignalRow)
    (c p d f : ℚ)
    (hodds : s.odds_american ≠ 0)
    (hd : d = agent_odds_decimal s.odds_american)
    (hf : f = st.strategy.kelly_fraction) (hf0 : 0 ≤ f)
    (hedge : s.edge_percent = (p - 1/d) * 100)
    (hp : 1/d ≤ p) :
    (calculate_stake st s c).1 = round2 (st.balance * kelly_fraction p d f / d) := by
  have hd1 : 1 < d := by
    rw [hd]
    unfold agent_odds_decimal
    rcases lt_trichotomy 0 s.odds_american with hpos | hzero | hneg
    · rw [if_pos hpos]
      have h1 : (1 : ℚ) ≤ (s.odds_american : ℚ) := by exact_mod_cast hpos
      have : (1 : ℚ) / 100 ≤ (s.odds_american : ℚ) / 100 :=
        div_le_div_of_nonneg_right h1 (by norm_num)
      linarith
    · exact absurd hzero.symm hodds
    · rw [if_neg (by linarith : ¬ (0 : ℤ) < s.odds_american)]
      have h1 : 1 ≤ s.odds_american.natAbs := by omega
      have h1q : (1 : ℚ) ≤ (s.odds_american.natAbs : ℚ) := by exact_mod_cast h1
      have : (0 : ℚ) < 100 / (s.odds_american.natAbs : ℚ) :=
        div_pos (by norm_num) (by linarith)
      linarith
  have hd0 : (0 : ℚ) < d := by linarith
  have hb0 : (0 : ℚ) < d - 1 := by linarith
  -- the OddsMath Kelly is unclamped on the no-negative-edge region
  have hnum : 0 ≤ (d - 1) * p - (1 - p) := by
    have hdp : 1 ≤ d * p := by
      calc (1 : ℚ) = (1 / d) * d := by field_simp
        _ ≤ p * d := mul_le_mul_of_nonneg_right hp (le_of_lt hd0)
        _ = d * p := by ring
    nlinarith
  have hkelly : kelly_fraction p d f = ((d - 1) * p - (1 - p)) / (d - 1) * f := by
    unfold kelly_fraction
    have : 0 ≤ ((d - 1) * p - (1 - p)) / (d - 1) * f :=
      mul_nonneg (div_nonneg hnum (le_of_lt hb0)) hf0
    simpa using max_eq_right this
  have harg :
      st.balance * (s.edge_percent / 100 / (agent_odds_decimal s.odds_american - 1) *
        st.strategy.kelly_fraction) =
      st.balance * kelly_fraction p d f / d := by
    rw [hkelly, ← hd, ← hf, hedge]
    have hdne : d ≠ 0 := ne_of_gt hd0
    have hbne : d - 1 ≠ 0 := ne_of_gt hb0
    field_simp
    ring
  unfold calculate_stake
  dsimp only
  rw [harg]

/-- Witness for `calculate_stake_kelly_relation` at the C3 state: the
agent's kelly stake equals `round2(1000 * kelly_fraction(11/20, 2, 1/4) / 2)`. -/
theorem calculate_stake_kelly_relation_witness :
    (calculate_stake c3State c3Signal 1).1 =
      round2 (c3State.balance * kelly_fraction (11/20) 2 (1/4) / 2) :=
  calculate_stake_kelly_relation c3State c3Signal 1 (11/20) 2 (1/4)
    (by norm_num [c3Signal])
    (by norm_num [agent_odds_decimal, c3Signal])
    (by norm_num [c3State])
    (by norm_num)
    (by norm_num [c3Signal])
    (by norm_num)

end SportsEdge
